import Mathlib

/- Shallow embedding of src/src/clients/python/examples/ensemble_image_client.py:
   an example client that validates a model's input/output signature, batches
   image files from a file or directory, issues one inference request over HTTP
   or gRPC, and prints decoded classification labels. -/

namespace Ensemble

/-- A named tensor as it appears in model metadata or model configuration. -/
structure TensorMeta where
  name : String
deriving DecidableEq, Repr

/-- gRPC-shaped (protobuf message) model metadata: `inputs` and `outputs` lists. -/
structure GrpcModelMetadata where
  inputs : List TensorMeta
  outputs : List TensorMeta
deriving DecidableEq, Repr

/-- gRPC-shaped model configuration: `input` and `output` lists and `max_batch_size`. -/
structure GrpcModelConfig where
  input : List TensorMeta
  output : List TensorMeta
  max_batch_size : Nat
deriving DecidableEq, Repr

/-- HTTP-shaped (JSON dictionary) model metadata, with fixed keys
`inputs` and `outputs` embedded as fields. -/
structure HttpModelMetadata where
  inputs : List TensorMeta
  outputs : List TensorMeta
deriving DecidableEq, Repr

/-- HTTP-shaped (JSON dictionary) model configuration, with fixed keys
`input`, `output` and `max_batch_size` embedded as fields. -/
structure HttpModelConfig where
  input : List TensorMeta
  output : List TensorMeta
  max_batch_size : Nat
deriving DecidableEq, Repr

/-- Embedding of `parse_model_grpc` (lines 43-65): checks that the metadata
reports exactly one input and one output and that the configuration reports
exactly one input, then returns `(input_name, output_name, max_batch_size)`.
A raised `Exception` is modelled as `Except.error` with the format string's
result. -/
def parse_model_grpc (mm : GrpcModelMetadata) (mc : GrpcModelConfig) :
    Except String (String × String × Nat) :=
  if mm.inputs.length ≠ 1 then
    .error ("expecting 1 input, got " ++ toString mm.inputs.length)
  else if mm.outputs.length ≠ 1 then
    .error ("expecting 1 output, got " ++ toString mm.outputs.length)
  else if mc.input.length ≠ 1 then
    .error ("expecting 1 input in model configuration, got " ++
      toString mc.input.length)
  else
    .ok ((mm.inputs.headD ⟨""⟩).name, (mm.outputs.headD ⟨""⟩).name,
      mc.max_batch_size)

/-- Embedding of `parse_model_http` (lines 68-90): same checks as the gRPC
variant, reading the dictionary-shaped metadata and configuration. -/
def parse_model_http (mm : HttpModelMetadata) (mc : HttpModelConfig) :
    Except String (String × String × Nat) :=
  if mm.inputs.length ≠ 1 then
    .error ("expecting 1 input, got " ++ toString mm.inputs.length)
  else if mm.outputs.length ≠ 1 then
    .error ("expecting 1 output, got " ++ toString mm.outputs.length)
  else if mc.input.length ≠ 1 then
    .error ("expecting 1 input in model configuration, got " ++
      toString mc.input.length)
  else
    .ok ((mm.inputs.headD ⟨""⟩).name, (mm.outputs.headD ⟨""⟩).name,
      mc.max_batch_size)

/-- The protocol-independent values carried by a model metadata response;
the server reports the same model description over either transport. -/
structure MetaVals where
  inputs : List TensorMeta
  outputs : List TensorMeta
deriving DecidableEq, Repr

/-- The protocol-independent values carried by a model configuration response. -/
structure ConfigVals where
  input : List TensorMeta
  output : List TensorMeta
  max_batch_size : Nat
deriving DecidableEq, Repr

/-- Present metadata values in the gRPC message shape. -/
def toGrpcMeta (v : MetaVals) : GrpcModelMetadata := ⟨v.inputs, v.outputs⟩

/-- Present metadata values in the HTTP dictionary shape. -/
def toHttpMeta (v : MetaVals) : HttpModelMetadata := ⟨v.inputs, v.outputs⟩

/-- Present configuration values in the gRPC message shape
(the `.config` field of the gRPC config response). -/
def toGrpcConfig (v : ConfigVals) : GrpcModelConfig :=
  ⟨v.input, v.output, v.max_batch_size⟩

/-- Present configuration values in the HTTP dictionary shape. -/
def toHttpConfig (v : ConfigVals) : HttpModelConfig :=
  ⟨v.input, v.output, v.max_batch_size⟩

/-- Python `chr`. -/
def pyChr (n : Nat) : Char := Char.ofNat n

/-- `"".join(chr(x) for x in result)` (line 105): decode a byte-typed
instance into the string of its character codes. -/
def decodeBytes (bs : List Nat) : List Char := bs.map pyChr

/-- Python `str.split(sep)` for a single-character separator:
`pySplit c s` cuts `s` at every occurrence of `c`; the empty string
splits to `[""]`. -/
def pySplit (sep : Char) : List Char → List (List Char)
  | [] => [[]]
  | c :: rest =>
    let r := pySplit sep rest
    if c = sep then [] :: r
    else
      match r with
      | [] => [[c]]
      | h :: t => (c :: h) :: t

/-- The exceptions `postprocess` can raise: the explicit result-count check
(line 98) and an `IndexError` from `cls[1]` or `cls[2]` when a decoded
instance splits into fewer than three fields (line 108). -/
inductive PostErr where
  | lengthMismatch (expected got : Nat)
  | indexError
deriving DecidableEq, Repr

/-- The line printed for one class result (line 108):
`"    {} ({}) = {}".format(cls[0], cls[1], cls[2])`. -/
def tripleLine (cls : List (List Char)) : String :=
  "    " ++ (cls.getD 0 []).asString ++ " (" ++ (cls.getD 1 []).asString ++
    ") = " ++ (cls.getD 2 []).asString

/-- Evaluate `cls[0]`, `cls[1]`, `cls[2]` as Python does: `none` models the
`IndexError` raised when the split has fewer than three fields. -/
def formatCls (cls : List (List Char)) : Option String :=
  match cls with
  | c0 :: c1 :: c2 :: _ =>
    some ("    " ++ c0.asString ++ " (" ++ c1.asString ++ ") = " ++ c2.asString)
  | _ => none

/-- The numpy array returned by `results.as_numpy(output_name)`: its dtype is
uniform, so it is either an array of byte-typed instances (each a sequence of
byte values) or an array of str-typed instances. Each row holds the class
results of one image. -/
inductive OutputArray where
  | bytes (rows : List (List (List Nat)))
  | strs (rows : List (List (List Char)))
deriving DecidableEq, Repr

/-- `len(output_array)` (line 98). -/
def OutputArray.numRows : OutputArray → Nat
  | .bytes rows => rows.length
  | .strs rows => rows.length

/-- Each instance as the character string the inner loop splits on `:`
(lines 104-107): byte-typed instances are decoded with `chr`, str-typed
instances are used as they are. -/
def OutputArray.decodedRows : OutputArray → List (List (List Char))
  | .bytes rows => rows.map (fun row => row.map decodeBytes)
  | .strs rows => rows

/-- The inner loop of `postprocess` over one image's class results: print a
line per instance, stopping at the first `IndexError`. -/
def emitLines : List (List Char) → List String × Option PostErr
  | [] => ([], none)
  | inst :: rest =>
    match formatCls (pySplit ':' inst) with
    | none => ([], some .indexError)
    | some line =>
      let p := emitLines rest
      (line :: p.1, p.2)

/-- The outer loop of `postprocess` over the images of the batch. -/
def emitRows : List (List (List Char)) → List String × Option PostErr
  | [] => ([], none)
  | row :: rest =>
    let p := emitLines row
    match p.2 with
    | some e => (p.1, some e)
    | none =>
      let q := emitRows rest
      (p.1 ++ q.1, q.2)

/-- Embedding of `postprocess` (lines 93-108): abort when the output array
length differs from the batch size sent, otherwise print one line per class
result of each image. Returns the printed lines and the exception, if any,
raised after them. -/
def postprocess (results : OutputArray) (batch_size : Nat) :
    List String × Option PostErr :=
  if results.numRows ≠ batch_size then
    ([], some (.lengthMismatch batch_size results.numRows))
  else emitRows results.decodedRows

/-- `os.path.join(d, f)` for a relative entry name `f`: insert the separator
unless the directory path already ends with one. -/
def pyJoin (d f : String) : String :=
  if d.data.getLast? = some '/' then d ++ f else d ++ "/" ++ f

/-- Python string comparison on character lists: lexicographic by code point,
the order `list.sort()` uses on `str`. -/
def pyLeChars : List Char → List Char → Bool
  | [], _ => true
  | _ :: _, [] => false
  | a :: as, b :: bs =>
    if a.toNat < b.toNat then true
    else if b.toNat < a.toNat then false
    else pyLeChars as bs

/-- Python `≤` on strings. -/
def pyLe (a b : String) : Bool := pyLeChars a.data b.data

/-- One step of `list.sort()`: insert an element into an already sorted
list. -/
def insertSorted (x : String) : List String → List String
  | [] => [x]
  | y :: ys => if pyLe x y then x :: y :: ys else y :: insertSorted x ys

/-- `filenames.sort()` (line 195): sort the path strings in Python's
lexicographic string order (as an insertion sort; any sorted permutation of
the distinct directory entries is the same list). -/
def pySort : List String → List String
  | [] => []
  | x :: xs => insertSorted x (pySort xs)

/-- Lines 183-193: if the input path is a directory, list the entries that are
regular files joined with the directory path; otherwise the single-element
list holding the path. `entries` carries each directory entry's name and its
`os.path.isfile` answer. -/
def listImageFiles (path : String) (isDir : Bool)
    (entries : List (String × Bool)) : List String :=
  if isDir then (entries.filter (fun e => e.2)).map (fun e => pyJoin path e.1)
  else [path]

/-- The truncation warning of lines 201-203, with Python's implicit
string-literal concatenation reproduced verbatim (no space after the first
comma). -/
def truncWarning (m : Nat) : String :=
  "The number of images exceeds maximum batch size,only the first " ++
    toString m ++ " images, sorted by name alphabetically," ++
    " will be processed"

/-- Lines 195-219: sort the filenames, cap the batch size at the declared
maximum, and keep the first `batch_size` names. Returns the batch, the final
batch size and the warning lines printed. -/
def chooseBatch (filenames : List String) (max_bs : Nat) :
    List String × Nat × List String :=
  let sorted := pySort filenames
  if sorted.length ≤ max_bs then (sorted, sorted.length, [])
  else (sorted.take max_bs, max_bs, [truncWarning max_bs])

/-- The two transports the script can use. -/
inductive Protocol where
  | http
  | grpc
deriving DecidableEq, Repr

/-- Python `str.lower` on one character (ASCII range, the only characters the
flag comparison meets). -/
def pyLowerChar (c : Char) : Char :=
  if 'A' ≤ c ∧ c ≤ 'Z' then Char.ofNat (c.toNat + 32) else c

/-- Python `str.lower`. -/
def pyLower (s : String) : String := ⟨s.data.map pyLowerChar⟩

/-- Lines 145-158 and 176-243: every protocol dispatch in the script is the
test `FLAGS.protocol.lower() == "grpc"`; anything else selects HTTP. -/
def selectProtocol (flag : String) : Protocol :=
  if pyLower flag = "grpc" then .grpc else .http

/-- The parsed command-line flags (lines 112-143). -/
structure Flags where
  verbose : Bool
  classes : Int
  url : String
  protocol : String
  image_filename : Option String
deriving DecidableEq, Repr

/-- The flag values argparse produces when the command line carries no
arguments: every flag is optional, and the positional `image_filename` is
declared `nargs` `?` with default `None` (lines 138-142). -/
def defaultFlags : Flags :=
  { verbose := false, classes := 1, url := "localhost:8000",
    protocol := "HTTP", image_filename := none }

/-- How a run can terminate with an uncaught Python exception. -/
inductive MainErr where
  | raised (msg : String)
  | typeError
  | ioError
  | valueError
  | post (e : PostErr)
deriving DecidableEq, Repr

/-- The observable outcome of a run: a diagnostic printed to standard output
followed by `sys.exit(1)`; an uncaught exception (non-zero exit, traceback on
standard error) after the given lines were printed; or falling off the end of
the script (exit status 0) having printed the given lines. -/
inductive Outcome where
  | exitDiag (msg : String)
  | uncaught (err : MainErr) (printed : List String)
  | success (printed : List String)
deriving DecidableEq, Repr

/-- The behaviour of the external world in one run: whether client creation
raises, what the two fetches return, what the filesystem reports about the
input path, which files fail to open, and what the inference call returns. -/
structure Env where
  clientCreateError : Option String
  metadataResult : Except String MetaVals
  configResult : Except String ConfigVals
  pathIsDir : Bool
  dirEntries : List (String × Bool)
  unreadable : List String
  inferResult : Except String OutputArray

/-- Lines 176-181: parse the model through the transport-matching function. -/
def parseDispatch (proto : Protocol) (mv : MetaVals) (cv : ConfigVals) :
    Except String (String × String × Nat) :=
  match proto with
  | .grpc => parse_model_grpc (toGrpcMeta mv) (toGrpcConfig cv)
  | .http => parse_model_http (toHttpMeta mv) (toHttpConfig cv)

/-- Lines 245-250: the inference call, `postprocess`, and the final `PASS`.
`warn` holds the truncation warning lines already printed. -/
def runPost (warn : List String) (bs : Nat)
    (ir : Except String OutputArray) : Outcome :=
  match ir with
  | .error e => .uncaught (.raised e) warn
  | .ok out =>
    let pp := postprocess out bs
    match pp.2 with
    | some e => .uncaught (.post e) (warn ++ pp.1)
    | none => .success (warn ++ pp.1 ++ ["PASS"])

/-- Lines 183-219: batch assembly, the per-file reads (an unreadable file
raises `IOError`), and `np.stack`, which raises `ValueError` on an empty
batch; then the rest of the run. -/
def runBatch (path : String) (maxbs : Nat) (env : Env) : Outcome :=
  if (chooseBatch (listImageFiles path env.pathIsDir env.dirEntries)
      maxbs).1.any (fun f => env.unreadable.contains f) then
    .uncaught .ioError (chooseBatch (listImageFiles path env.pathIsDir
      env.dirEntries) maxbs).2.2
  else if (chooseBatch (listImageFiles path env.pathIsDir env.dirEntries)
      maxbs).2.1 = 0 then
    .uncaught .valueError (chooseBatch (listImageFiles path env.pathIsDir
      env.dirEntries) maxbs).2.2
  else runPost (chooseBatch (listImageFiles path env.pathIsDir
      env.dirEntries) maxbs).2.2
    (chooseBatch (listImageFiles path env.pathIsDir env.dirEntries)
      maxbs).2.1
    env.inferResult

/-- Embedding of the `__main__` block (lines 111-250): client creation, the
two fetches (each failure printing a diagnostic and exiting with status 1),
model validation, the `os.path.isdir` test (a `None` path raises
`TypeError`), then batch assembly and the rest of the run. -/
def runMain (fl : Flags) (env : Env) : Outcome :=
  match env.clientCreateError with
  | some e => .exitDiag ("client creation failed: " ++ e)
  | none =>
    match env.metadataResult with
    | .error e => .exitDiag ("failed to retrieve the metadata: " ++ e)
    | .ok mv =>
      match env.configResult with
      | .error e => .exitDiag ("failed to retrieve the config: " ++ e)
      | .ok cv =>
        match parseDispatch (selectProtocol fl.protocol) mv cv with
        | .error e => .uncaught (.raised e) []
        | .ok pr =>
          match fl.image_filename with
          | none => .uncaught .typeError []
          | some path => runBatch path pr.2.2 env

/-- Every stage of the run succeeds: client creation, both fetches, model
validation, a present input path, readable selected files, a non-empty batch,
the inference call, and post-processing. -/
def allStagesOk (fl : Flags) (env : Env) : Prop :=
  env.clientCreateError = none ∧
  ∃ mv cv pr path out,
    env.metadataResult = .ok mv ∧
    env.configResult = .ok cv ∧
    parseDispatch (selectProtocol fl.protocol) mv cv = .ok pr ∧
    fl.image_filename = some path ∧
    (chooseBatch (listImageFiles path env.pathIsDir env.dirEntries)
        pr.2.2).1.any (fun f => env.unreadable.contains f) = false ∧
    (chooseBatch (listImageFiles path env.pathIsDir env.dirEntries)
        pr.2.2).2.1 ≠ 0 ∧
    env.inferResult = .ok out ∧
    (postprocess out (chooseBatch (listImageFiles path env.pathIsDir
        env.dirEntries) pr.2.2).2.1).2 = none

theorem pyLeChars_total (a b : List Char) :
    pyLeChars a b = true ∨ pyLeChars b a = true := by
  induction a generalizing b with
  | nil => exact Or.inl rfl
  | cons x xs ih =>
    cases b with
    | nil => exact Or.inr rfl
    | cons y ys =>
      rcases Nat.lt_trichotomy x.toNat y.toNat with h | h | h
      · exact Or.inl (by simp [pyLeChars, h])
      · rcases ih ys with h2 | h2
        · exact Or.inl (by simp [pyLeChars, h, h2])
        · exact Or.inr (by simp [pyLeChars, h, h2])
      · exact Or.inr (by simp [pyLeChars, h, Nat.lt_asymm h])

theorem pyLeChars_trans (a b c : List Char) (h1 : pyLeChars a b = true)
    (h2 : pyLeChars b c = true) : pyLeChars a c = true := by
  induction a generalizing b c with
  | nil => rfl
  | cons x xs ih =>
    cases b with
    | nil => simp [pyLeChars] at h1
    | cons y ys =>
      cases c with
      | nil => simp [pyLeChars] at h2
      | cons z zs =>
        simp only [pyLeChars] at h1 h2 ⊢
        by_cases hxy : x.toNat < y.toNat
        · by_cases hyz : y.toNat < z.toNat
          · simp [Nat.lt_trans hxy hyz]
          · by_cases hzy : z.toNat < y.toNat
            · simp [hyz, hzy] at h2
            · have hyz' : y.toNat = z.toNat :=
                Nat.le_antisymm (Nat.not_lt.mp hzy) (Nat.not_lt.mp hyz)
              simp [hyz' ▸ hxy]
        · by_cases hyx : y.toNat < x.toNat
          · simp [hxy, hyx] at h1
          · have hxy' : x.toNat = y.toNat :=
              Nat.le_antisymm (Nat.not_lt.mp hyx) (Nat.not_lt.mp hxy)
            simp only [hxy, hyx, if_false, if_true, ite_false, ite_true] at h1
            by_cases hyz : y.toNat < z.toNat
            · simp [hxy' ▸ hyz]
            · by_cases hzy : z.toNat < y.toNat
              · simp [hyz, hzy] at h2
              · simp only [hyz, hzy, if_false, ite_false] at h2
                have hxz : ¬ x.toNat < z.toNat := by omega
                have hzx : ¬ z.toNat < x.toNat := by omega
                simp [hxz, hzx, ih ys zs h1 h2]

theorem pyLe_total (a b : String) : pyLe a b = true ∨ pyLe b a = true :=
  pyLeChars_total a.data b.data

theorem pyLe_trans (a b c : String) (h1 : pyLe a b = true)
    (h2 : pyLe b c = true) : pyLe a c = true :=
  pyLeChars_trans a.data b.data c.data h1 h2

theorem insertSorted_perm (x : String) (l : List String) :
    (insertSorted x l).Perm (x :: l) := by
  induction l with
  | nil => exact List.Perm.refl _
  | cons y ys ih =>
    by_cases hxy : pyLe x y = true
    · simp [insertSorted, hxy]
    · simp only [insertSorted, hxy, if_false]
      exact (ih.cons y).trans (List.Perm.swap x y ys)

theorem insertSorted_sorted (x : String) (l : List String)
    (h : List.Sorted (fun a b => pyLe a b = true) l) :
    List.Sorted (fun a b => pyLe a b = true) (insertSorted x l) := by
  induction l with
  | nil => simp [insertSorted]
  | cons y ys ih =>
    by_cases hxy : pyLe x y = true
    · simp only [insertSorted, hxy, if_true]
      rw [List.sorted_cons]
      refine ⟨?_, h⟩
      intro b hb
      rcases List.mem_cons.mp hb with rfl | hb2
      · exact hxy
      · exact pyLe_trans x y b hxy ((List.sorted_cons.mp h).1 b hb2)
    · have hred : insertSorted x (y :: ys) = y :: insertSorted x ys := by
        simp [insertSorted, hxy]
      rw [hred]
      rw [List.sorted_cons] at h ⊢
      obtain ⟨hy, hys⟩ := h
      refine ⟨?_, ih hys⟩
      intro b hb
      rcases List.mem_cons.mp ((insertSorted_perm x ys).mem_iff.mp hb)
        with rfl | hb2
      · exact (pyLe_total y b).resolve_right hxy
      · exact hy b hb2

theorem pySort_perm (fs : List String) : (pySort fs).Perm fs := by
  induction fs with
  | nil => exact List.Perm.refl _
  | cons x xs ih => exact (insertSorted_perm x (pySort xs)).trans (ih.cons x)

theorem pySort_sorted (fs : List String) :
    List.Sorted (fun a b => pyLe a b = true) (pySort fs) := by
  induction fs with
  | nil => simp [pySort]
  | cons x xs ih => exact insertSorted_sorted x (pySort xs) ih

theorem pySort_length (fs : List String) : (pySort fs).length = fs.length :=
  (pySort_perm fs).length_eq

theorem chooseBatch_length_le (fs : List String) (m : Nat) :
    (chooseBatch fs m).1.length ≤ m := by
  by_cases h : (pySort fs).length ≤ m
  · simp [chooseBatch, h]
  · simp [chooseBatch, h, List.length_take]

theorem chooseBatch_small (fs : List String) (m : Nat) (h : fs.length ≤ m) :
    chooseBatch fs m = (pySort fs, fs.length, []) := by
  simp [chooseBatch, pySort_length, h]

theorem chooseBatch_large (fs : List String) (m : Nat) (h : m < fs.length) :
    chooseBatch fs m = ((pySort fs).take m, m, [truncWarning m]) := by
  simp [chooseBatch, pySort_length, Nat.not_le.mpr h]

/-- C1: the number of images placed into the batch never exceeds the declared
maximum batch size; and for a directory input whose regular-file count is at
most that maximum, the batch is exactly those files, sorted lexicographically
by filename, with no truncation warning. -/
theorem batch_within_max_and_small_dir_sorted
    (path : String) (entries : List (String × Bool)) (isDir : Bool) (m : Nat) :
    (chooseBatch (listImageFiles path isDir entries) m).1.length ≤ m ∧
    ((listImageFiles path true entries).length ≤ m →
      (chooseBatch (listImageFiles path true entries) m).1
        = pySort (listImageFiles path true entries) ∧
      (chooseBatch (listImageFiles path true entries) m).1.Perm
        (listImageFiles path true entries) ∧
      List.Sorted (fun a b => pyLe a b = true)
        (chooseBatch (listImageFiles path true entries) m).1 ∧
      (chooseBatch (listImageFiles path true entries) m).2.2 = []) := by
  refine ⟨chooseBatch_length_le _ m, fun h => ?_⟩
  rw [chooseBatch_small _ m h]
  exact ⟨rfl, pySort_perm _, pySort_sorted _, rfl⟩

/-- C1 witness: a directory of two files under the maximum of 8 yields both
files, sorted, with no warning. -/
theorem batch_within_max_and_small_dir_sorted_witness :
    (chooseBatch (listImageFiles "imgs" true
        [("dog.jpg", true), ("cat.jpg", true)]) 8).1
      = ["imgs/cat.jpg", "imgs/dog.jpg"] ∧
    (chooseBatch (listImageFiles "imgs" true
        [("dog.jpg", true), ("cat.jpg", true)]) 8).2.2 = [] := by
  have h := (batch_within_max_and_small_dir_sorted "imgs"
    [("dog.jpg", true), ("cat.jpg", true)] true 8).2 (by decide)
  exact ⟨by rw [h.1]; decide, h.2.2.2⟩

/-- C2: for a directory whose regular-file count exceeds the declared maximum
batch size, exactly `m` files are kept, namely the first `m` filenames in
lexicographic order, and the truncation warning is printed. -/
theorem dir_truncation_first_max_sorted
    (path : String) (entries : List (String × Bool)) (m : Nat)
    (h : m < (listImageFiles path true entries).length) :
    (chooseBatch (listImageFiles path true entries) m).1
      = (pySort (listImageFiles path true entries)).take m ∧
    (chooseBatch (listImageFiles path true entries) m).1.length = m ∧
    (chooseBatch (listImageFiles path true entries) m).2.1 = m ∧
    (chooseBatch (listImageFiles path true entries) m).2.2
      = [truncWarning m] ∧
    List.Sorted (fun a b => pyLe a b = true)
      (pySort (listImageFiles path true entries)) ∧
    (pySort (listImageFiles path true entries)).Perm
      (listImageFiles path true entries) := by
  rw [chooseBatch_large _ m h]
  refine ⟨rfl, ?_, rfl, rfl, pySort_sorted _, pySort_perm _⟩
  rw [List.length_take, pySort_length]
  exact Nat.min_eq_left (Nat.le_of_lt h)

/-- C2 witness: three files against a maximum of 2 keeps the first two sorted
names and prints the warning. -/
theorem dir_truncation_first_max_sorted_witness :
    (chooseBatch (listImageFiles "imgs" true
        [("c.jpg", true), ("a.jpg", true), ("b.jpg", true)]) 2).1
      = ["imgs/a.jpg", "imgs/b.jpg"] ∧
    (chooseBatch (listImageFiles "imgs" true
        [("c.jpg", true), ("a.jpg", true), ("b.jpg", true)]) 2).2.2
      = [truncWarning 2] := by
  have h := dir_truncation_first_max_sorted "imgs"
    [("c.jpg", true), ("a.jpg", true), ("b.jpg", true)] 2 (by decide)
  exact ⟨by rw [h.1]; decide, h.2.2.2.1⟩

/-- C3 counterexample: metadata reporting exactly one input and one output on
which model parsing still does not return the triple, because the model
configuration reports two inputs. -/
theorem parse_despite_unit_counts_cex :
    (GrpcModelMetadata.mk [⟨"IN"⟩] [⟨"OUT"⟩]).inputs.length = 1 ∧
    (GrpcModelMetadata.mk [⟨"IN"⟩] [⟨"OUT"⟩]).outputs.length = 1 ∧
    parse_model_grpc (GrpcModelMetadata.mk [⟨"IN"⟩] [⟨"OUT"⟩])
        (GrpcModelConfig.mk [⟨"A"⟩, ⟨"B"⟩] [] 8)
      = .error "expecting 1 input in model configuration, got 2" ∧
    ∀ t, parse_model_grpc (GrpcModelMetadata.mk [⟨"IN"⟩] [⟨"OUT"⟩])
        (GrpcModelConfig.mk [⟨"A"⟩, ⟨"B"⟩] [] 8) ≠ .ok t :=
  ⟨rfl, rfl, rfl, fun _ h => Except.noConfusion h⟩

theorem parse_grpc_err (mm : GrpcModelMetadata) (mc : GrpcModelConfig)
    (h : mm.inputs.length ≠ 1 ∨ mm.outputs.length ≠ 1) :
    ∃ e, parse_model_grpc mm mc = .error e := by
  by_cases h1 : mm.inputs.length = 1
  · have h2 : mm.outputs.length ≠ 1 := h.resolve_left (by simp [h1])
    exact ⟨"expecting 1 output, got " ++ toString mm.outputs.length,
      by simp [parse_model_grpc, h1, h2]⟩
  · exact ⟨"expecting 1 input, got " ++ toString mm.inputs.length,
      by simp [parse_model_grpc, h1]⟩

theorem parse_http_err (hm : HttpModelMetadata) (hc : HttpModelConfig)
    (h : hm.inputs.length ≠ 1 ∨ hm.outputs.length ≠ 1) :
    ∃ e, parse_model_http hm hc = .error e := by
  by_cases h1 : hm.inputs.length = 1
  · have h2 : hm.outputs.length ≠ 1 := h.resolve_left (by simp [h1])
    exact ⟨"expecting 1 output, got " ++ toString hm.outputs.length,
      by simp [parse_model_http, h1, h2]⟩
  · exact ⟨"expecting 1 input, got " ++ toString hm.inputs.length,
      by simp [parse_model_http, h1]⟩

/-- C3 amended: parsing aborts when the metadata input or output count
differs from 1 (under either protocol), and the run raises before any
inference call; when both metadata counts equal 1 and the configuration also
reports exactly one input, parsing returns the
`(input_name, output_name, max_batch_size)` triple. -/
theorem parse_validation_amended (mm : GrpcModelMetadata)
    (mc : GrpcModelConfig) (hm : HttpModelMetadata) (hc : HttpModelConfig) :
    ((mm.inputs.length ≠ 1 ∨ mm.outputs.length ≠ 1) →
      ∀ t, parse_model_grpc mm mc ≠ .ok t) ∧
    (mm.inputs.length = 1 → mm.outputs.length = 1 → mc.input.length = 1 →
      parse_model_grpc mm mc =
        .ok ((mm.inputs.headD ⟨""⟩).name, (mm.outputs.headD ⟨""⟩).name,
          mc.max_batch_size)) ∧
    ((hm.inputs.length ≠ 1 ∨ hm.outputs.length ≠ 1) →
      ∀ t, parse_model_http hm hc ≠ .ok t) ∧
    (hm.inputs.length = 1 → hm.outputs.length = 1 → hc.input.length = 1 →
      parse_model_http hm hc =
        .ok ((hm.inputs.headD ⟨""⟩).name, (hm.outputs.headD ⟨""⟩).name,
          hc.max_batch_size)) ∧
    (∀ (fl : Flags) (env : Env) (mv : MetaVals) (cv : ConfigVals),
      env.clientCreateError = none → env.metadataResult = .ok mv →
      env.configResult = .ok cv →
      (mv.inputs.length ≠ 1 ∨ mv.outputs.length ≠ 1) →
      ∃ e, runMain fl env = .uncaught (.raised e) []) := by
  refine ⟨?_, ?_, ?_, ?_, ?_⟩
  · intro h t hok
    obtain ⟨e, he⟩ := parse_grpc_err mm mc h
    rw [he] at hok
    exact Except.noConfusion hok
  · intro h1 h2 h3
    simp [parse_model_grpc, h1, h2, h3]
  · intro h t hok
    obtain ⟨e, he⟩ := parse_http_err hm hc h
    rw [he] at hok
    exact Except.noConfusion hok
  · intro h1 h2 h3
    simp [parse_model_http, h1, h2, h3]
  · intro fl env mv cv h1 h2 h3 h4
    obtain ⟨e, he⟩ :
        ∃ e, parseDispatch (selectProtocol fl.protocol) mv cv = .error e := by
      cases selectProtocol fl.protocol with
      | http => exact parse_http_err (toHttpMeta mv) (toHttpConfig cv) h4
      | grpc => exact parse_grpc_err (toGrpcMeta mv) (toGrpcConfig cv) h4
    exact ⟨e, by simp [runMain, h1, h2, h3, he]⟩

/-- C3 witness for the amended claim: a valid one-input one-output model
parses to its triple, and an extra metadata input makes the run raise before
inference. -/
theorem parse_validation_amended_witness :
    parse_model_grpc ⟨[⟨"INPUT"⟩], [⟨"OUTPUT"⟩]⟩ ⟨[⟨"INPUT"⟩], [⟨"OUTPUT"⟩], 4⟩
      = .ok ("INPUT", "OUTPUT", 4) ∧
    (∀ t, parse_model_http ⟨[⟨"A"⟩, ⟨"B"⟩], [⟨"OUT"⟩]⟩ ⟨[⟨"A"⟩], [], 4⟩
      ≠ .ok t) := by
  constructor
  · exact (parse_validation_amended ⟨[⟨"INPUT"⟩], [⟨"OUTPUT"⟩]⟩
      ⟨[⟨"INPUT"⟩], [⟨"OUTPUT"⟩], 4⟩ ⟨[], []⟩ ⟨[], [], 0⟩).2.1
      (by decide) (by decide) (by decide)
  · exact (parse_validation_amended ⟨[], []⟩ ⟨[], [], 0⟩
      ⟨[⟨"A"⟩, ⟨"B"⟩], [⟨"OUT"⟩]⟩ ⟨[⟨"A"⟩], [], 4⟩).2.2.1
      (Or.inl (by decide))

theorem emitLines_ne_mismatch (insts : List (List Char)) (e g : Nat) :
    (emitLines insts).2 ≠ some (.lengthMismatch e g) := by
  induction insts with
  | nil => simp [emitLines]
  | cons i rest ih =>
    simp only [emitLines]
    cases formatCls (pySplit ':' i) with
    | none => simp
    | some line => simpa using ih

theorem emitRows_ne_mismatch (rows : List (List (List Char))) (e g : Nat) :
    (emitRows rows).2 ≠ some (.lengthMismatch e g) := by
  induction rows with
  | nil => simp [emitRows]
  | cons row rest ih =>
    simp only [emitRows]
    cases hp : (emitLines row).2 with
    | none => simpa using ih
    | some e2 =>
      have := emitLines_ne_mismatch row e g
      rw [hp] at this
      simpa using fun h => this (by rw [h])

/-- C4: post-processing aborts with the result-count exception, printing
nothing, exactly when the output array length differs from the batch size
sent; when the lengths agree, no such exception can arise. -/
theorem postprocess_length_mismatch_aborts (out : OutputArray) (b : Nat) :
    (out.numRows ≠ b →
      postprocess out b = ([], some (.lengthMismatch b out.numRows))) ∧
    (out.numRows = b →
      ∀ e g, (postprocess out b).2 ≠ some (.lengthMismatch e g)) := by
  constructor
  · intro h
    simp [postprocess, h]
  · intro h e g
    simp only [postprocess, h, ne_eq, not_true_eq_false, if_neg,
      not_false_eq_true]
    exact emitRows_ne_mismatch _ e g

/-- C4 witness: a one-row response against batch size 2 aborts with the
mismatch exception and prints nothing; against batch size 1 it does not. -/
theorem postprocess_length_mismatch_aborts_witness :
    postprocess (.strs [["0:0.9:cat".data]]) 2
      = ([], some (.lengthMismatch 2 1)) ∧
    ∀ e g, (postprocess (.strs [["0:0.9:cat".data]]) 1).2
      ≠ some (.lengthMismatch e g) :=
  ⟨(postprocess_length_mismatch_aborts (.strs [["0:0.9:cat".data]]) 2).1
      (by decide),
   (postprocess_length_mismatch_aborts (.strs [["0:0.9:cat".data]]) 1).2
      (by decide)⟩

theorem formatCls_eq_tripleLine (cls : List (List Char))
    (h : 3 ≤ cls.length) : formatCls cls = some (tripleLine cls) := by
  match cls with
  | [] => simp at h
  | [_] => simp at h
  | [_, _] => simp at h
  | c0 :: c1 :: c2 :: rest => rfl

theorem emitLines_all3 (insts : List (List Char))
    (h : ∀ inst ∈ insts, 3 ≤ (pySplit ':' inst).length) :
    emitLines insts
      = (insts.map (fun inst => tripleLine (pySplit ':' inst)), none) := by
  induction insts with
  | nil => rfl
  | cons i rest ih =>
    have h3 := h i (by simp)
    have hr := ih (fun inst hm => h inst (by simp [hm]))
    simp [emitLines, formatCls_eq_tripleLine _ h3, hr]

theorem emitRows_all3 (rows : List (List (List Char)))
    (h : ∀ row ∈ rows, ∀ inst ∈ row, 3 ≤ (pySplit ':' inst).length) :
    emitRows rows
      = ((rows.map (fun row =>
          row.map (fun inst => tripleLine (pySplit ':' inst)))).flatten,
         none) := by
  induction rows with
  | nil => rfl
  | cons row rest ih =>
    have hrow := emitLines_all3 row (h row (by simp))
    have hrest := ih (fun r hr inst hi => h r (by simp [hr]) inst hi)
    simp [emitRows, hrow, hrest]

/-- C5: on a byte-typed response whose every instance decodes and splits on
`:` into at least the three `id`, `score`, `label` fields, post-processing
prints, per class result of each image in order, the line
`    id (score) = label`, and raises nothing. -/
theorem postprocess_bytes_triples (rows : List (List (List Nat)))
    (h : ∀ row ∈ rows, ∀ inst ∈ row,
      3 ≤ (pySplit ':' (decodeBytes inst)).length) :
    postprocess (.bytes rows) rows.length
      = ((rows.map (fun row => row.map (fun inst =>
          tripleLine (pySplit ':' (decodeBytes inst))))).flatten, none) ∧
    ∀ a b c rest, tripleLine (a :: b :: c :: rest)
      = "    " ++ a.asString ++ " (" ++ b.asString ++ ") = " ++ c.asString := by
  constructor
  · have hall : ∀ row ∈ (OutputArray.bytes rows).decodedRows,
        ∀ inst ∈ row, 3 ≤ (pySplit ':' inst).length := by
      intro row hrow inst hinst
      simp only [OutputArray.decodedRows, List.mem_map] at hrow
      obtain ⟨row0, hrow0, rfl⟩ := hrow
      simp only [List.mem_map] at hinst
      obtain ⟨inst0, hinst0, rfl⟩ := hinst
      exact h row0 hrow0 inst0 hinst0
    have hlen : (OutputArray.bytes rows).numRows = rows.length := rfl
    simp only [postprocess, hlen, ne_eq, not_true_eq_false, if_neg,
      not_false_eq_true]
    rw [emitRows_all3 _ hall]
    simp [OutputArray.decodedRows, List.map_map, Function.comp_def]
  · intro a b c rest
    rfl

/-- C5 witness: a two-image byte response prints the decoded triples in
order. -/
theorem postprocess_bytes_triples_witness :
    postprocess (.bytes [[[48, 58, 48, 46, 57, 58, 99, 97, 116]],
        [[49, 58, 48, 46, 56, 58, 100, 111, 103]]]) 2
      = (["    0 (0.9) = cat", "    1 (0.8) = dog"], none) := by
  have h := (postprocess_bytes_triples
    [[[48, 58, 48, 46, 57, 58, 99, 97, 116]],
     [[49, 58, 48, 46, 56, 58, 100, 111, 103]]] (by decide)).1
  rw [show ([[[48, 58, 48, 46, 57, 58, 99, 97, 116]],
      [[49, 58, 48, 46, 56, 58, 100, 111, 103]]] :
      List (List (List Nat))).length = 2 from rfl] at h
  rw [h]
  decide

theorem runPost_ne_exitDiag (warn : List String) (bs : Nat)
    (ir : Except String OutputArray) (m : String) :
    runPost warn bs ir ≠ .exitDiag m := by
  cases ir with
  | error e => simp [runPost]
  | ok out =>
    simp only [runPost]
    cases (postprocess out bs).2 <;> simp

theorem runBatch_ne_exitDiag (path : String) (maxbs : Nat) (env : Env)
    (m : String) : runBatch path maxbs env ≠ .exitDiag m := by
  unfold runBatch
  split
  · simp
  · split
    · simp
    · exact runPost_ne_exitDiag _ _ _ m

theorem runPost_success_iff (warn : List String) (bs : Nat)
    (ir : Except String OutputArray) :
    (∃ lines, runPost warn bs ir = .success lines) ↔
      (∃ out, ir = .ok out ∧ (postprocess out bs).2 = none) := by
  cases ir with
  | error e => simp [runPost]
  | ok out =>
    simp only [runPost]
    cases hpp : (postprocess out bs).2 with
    | some e => simp [hpp]
    | none => simp [hpp]

theorem runBatch_success_iff (path : String) (maxbs : Nat) (env : Env) :
    (∃ lines, runBatch path maxbs env = .success lines) ↔
      ((chooseBatch (listImageFiles path env.pathIsDir env.dirEntries)
          maxbs).1.any (fun f => env.unreadable.contains f) = false ∧
       (chooseBatch (listImageFiles path env.pathIsDir env.dirEntries)
          maxbs).2.1 ≠ 0 ∧
       ∃ out, env.inferResult = .ok out ∧
         (postprocess out (chooseBatch (listImageFiles path env.pathIsDir
            env.dirEntries) maxbs).2.1).2 = none) := by
  unfold runBatch
  split
  · next h =>
    simp [h]
    intro hall
    obtain ⟨f, hf1, hf2⟩ := List.any_eq_true.mp h
    exact absurd (show f ∈ env.unreadable by simpa using hf2) (hall f hf1)
  · next h1 =>
    split
    · next h2 =>
      simp only [Bool.not_eq_true] at h1
      simp [h1, h2]
    · next h2 =>
      rw [runPost_success_iff]
      simp only [Bool.not_eq_true] at h1
      simp [h1, h2]
      intro out hout hpp f hf
      have hcf := List.any_eq_false.mp h1 f hf
      simpa using hcf

theorem runPost_pass (warn : List String) (bs : Nat)
    (ir : Except String OutputArray) (lines : List String)
    (h : runPost warn bs ir = .success lines) :
    lines.getLast? = some "PASS" := by
  cases ir with
  | error e => simp [runPost] at h
  | ok out =>
    simp only [runPost] at h
    cases hpp : (postprocess out bs).2 with
    | some e =>
      rw [hpp] at h
      simp at h
    | none =>
      rw [hpp] at h
      simp only [Outcome.success.injEq] at h
      subst h
      simp [List.getLast?_concat]

theorem runBatch_pass (path : String) (maxbs : Nat) (env : Env)
    (lines : List String) (h : runBatch path maxbs env = .success lines) :
    lines.getLast? = some "PASS" := by
  unfold runBatch at h
  split at h
  · exact absurd h (by simp)
  · split at h
    · exact absurd h (by simp)
    · exact runPost_pass _ _ _ _ h

/-- C6: the run ends in the exit-1-with-stdout-diagnostic outcome exactly when
client creation, the metadata fetch, or the config fetch fails; it ends in the
exit-0 outcome exactly when every stage succeeds, and then the last printed
line is `PASS`. -/
theorem main_exit_pass_iff (fl : Flags) (env : Env) :
    ((∃ m, runMain fl env = .exitDiag m) ↔
      ((∃ e, env.clientCreateError = some e) ∨
       (∃ e, env.metadataResult = .error e) ∨
       (∃ e, env.configResult = .error e))) ∧
    (∀ lines, runMain fl env = .success lines →
      lines.getLast? = some "PASS") ∧
    ((∃ lines, runMain fl env = .success lines) ↔ allStagesOk fl env) := by
  obtain ⟨cce, mr, cr, pid, de, ur, ir⟩ := env
  cases cce with
  | some e => simp [runMain, allStagesOk]
  | none =>
  cases mr with
  | error e => simp [runMain, allStagesOk]
  | ok mv =>
  cases cr with
  | error e => simp [runMain, allStagesOk]
  | ok cv =>
  simp only [runMain]
  cases hp : parseDispatch (selectProtocol fl.protocol) mv cv with
  | error e => simp [allStagesOk, hp]
  | ok pr =>
  obtain ⟨n1, n2, mbs⟩ := pr
  cases hif : fl.image_filename with
  | none => simp [allStagesOk, hp, hif]
  | some path =>
  refine ⟨?_, ?_, ?_⟩
  · simp [runBatch_ne_exitDiag]
  · intro lines h
    exact runBatch_pass _ _ _ _ h
  · rw [runBatch_success_iff]
    simp [allStagesOk, hp, hif]
    constructor
    · rintro ⟨hall, hz, out, hout, hpp⟩
      exact ⟨n1, n2, mbs, ⟨rfl, rfl, rfl⟩, hall, hz, out, hout, hpp⟩
    · rintro ⟨a, b, c, ⟨rfl, rfl, rfl⟩, hall, hz, out, hout, hpp⟩
      exact ⟨hall, hz, out, hout, hpp⟩

/-- C6 witness: a failed client creation yields the diagnostic exit, and in a
fully successful concrete run the last printed line is `PASS`. -/
theorem main_exit_pass_iff_witness :
    (∃ m, runMain defaultFlags
      { clientCreateError := some "connection refused",
        metadataResult := .error "x", configResult := .error "x",
        pathIsDir := false, dirEntries := [], unreadable := [],
        inferResult := .error "x" } = .exitDiag m) ∧
    (["    0 (0.9) = cat", "    1 (0.8) = dog", "PASS"] :
      List String).getLast? = some "PASS" := by
  constructor
  · exact (main_exit_pass_iff defaultFlags _).1.mpr
      (Or.inl ⟨"connection refused", rfl⟩)
  · exact (main_exit_pass_iff
      { defaultFlags with image_filename := some "imgs" }
      { clientCreateError := none,
        metadataResult := .ok ⟨[⟨"IN"⟩], [⟨"OUT"⟩]⟩,
        configResult := .ok ⟨[⟨"IN"⟩], [⟨"OUT"⟩], 8⟩,
        pathIsDir := true,
        dirEntries := [("dog.jpg", true), ("cat.jpg", true)],
        unreadable := [],
        inferResult := .ok (.bytes
          [[[48, 58, 48, 46, 57, 58, 99, 97, 116]],
           [[49, 58, 48, 46, 56, 58, 100, 111, 103]]]) }).2.1 _ (by decide)

/-- C7: the two parse functions agree on metadata and configuration carrying
the same values in the two transport shapes, and the whole run's observable
outcome (in particular every printed classification line) is independent of
the protocol flag when the external world behaves identically. -/
theorem http_grpc_equivalence :
    (∀ (mv : MetaVals) (cv : ConfigVals),
      parse_model_grpc (toGrpcMeta mv) (toGrpcConfig cv)
        = parse_model_http (toHttpMeta mv) (toHttpConfig cv)) ∧
    (∀ (fl : Flags) (env : Env) (p q : String),
      runMain { fl with protocol := p } env
        = runMain { fl with protocol := q } env) := by
  constructor
  · intro mv cv
    rfl
  · intro fl env p q
    obtain ⟨cce, mr, cr, pid, de, ur, ir⟩ := env
    cases cce with
    | some e => rfl
    | none =>
    cases mr with
    | error e => rfl
    | ok mv =>
    cases cr with
    | error e => rfl
    | ok cv =>
    have hd : parseDispatch (selectProtocol p) mv cv
        = parseDispatch (selectProtocol q) mv cv := by
      cases selectProtocol p <;> cases selectProtocol q <;> rfl
    simp only [runMain]
    rw [hd]

/-- C8: protocol selection is exactly the case-insensitive comparison of the
flag against `grpc`; every other value, for example `foo`, selects HTTP, and
no value is rejected. -/
theorem protocol_flag_dispatch (s : String) :
    (selectProtocol s = .grpc ↔ pyLower s = "grpc") ∧
    (selectProtocol s = .grpc ∨ selectProtocol s = .http) ∧
    selectProtocol "foo" = .http ∧
    selectProtocol "gRPC" = .grpc ∧
    selectProtocol "GRPC" = .grpc ∧
    selectProtocol "HTTP" = .http ∧
    selectProtocol "hTtP" = .http := by
  refine ⟨?_, ?_, by decide, by decide, by decide, by decide, by decide⟩
  · by_cases h : pyLower s = "grpc" <;> simp [selectProtocol, h]
  · by_cases h : pyLower s = "grpc"
    · exact Or.inl (by simp [selectProtocol, h])
    · exact Or.inr (by simp [selectProtocol, h])

/-- C9: validation also aborts when the configuration's input count differs
from 1 even though both metadata counts equal 1, and the configuration's
output list is never consulted: parsing is invariant under replacing it. -/
theorem config_input_checked_output_ignored
    (mm : GrpcModelMetadata) (mc : GrpcModelConfig)
    (hm : HttpModelMetadata) (hc : HttpModelConfig) :
    (mm.inputs.length = 1 → mm.outputs.length = 1 → mc.input.length ≠ 1 →
      parse_model_grpc mm mc
        = .error ("expecting 1 input in model configuration, got " ++
            toString mc.input.length)) ∧
    (∀ outs, parse_model_grpc mm { mc with output := outs }
        = parse_model_grpc mm mc) ∧
    (hm.inputs.length = 1 → hm.outputs.length = 1 → hc.input.length ≠ 1 →
      parse_model_http hm hc
        = .error ("expecting 1 input in model configuration, got " ++
            toString hc.input.length)) ∧
    (∀ outs, parse_model_http hm { hc with output := outs }
        = parse_model_http hm hc) := by
  refine ⟨?_, ?_, ?_, ?_⟩
  · intro h1 h2 h3
    simp [parse_model_grpc, h1, h2, h3]
  · intro outs
    rfl
  · intro h1 h2 h3
    simp [parse_model_http, h1, h2, h3]
  · intro outs
    rfl

/-- C9 witness: a configuration with no inputs is rejected although the
metadata counts are 1, and adding configuration outputs changes nothing. -/
theorem config_input_checked_output_ignored_witness :
    parse_model_grpc ⟨[⟨"IN"⟩], [⟨"OUT"⟩]⟩ ⟨[], [], 8⟩
      = .error "expecting 1 input in model configuration, got 0" ∧
    parse_model_http ⟨[⟨"IN"⟩], [⟨"OUT"⟩]⟩ ⟨[⟨"IN"⟩], [⟨"O1"⟩, ⟨"O2"⟩], 8⟩
      = parse_model_http ⟨[⟨"IN"⟩], [⟨"OUT"⟩]⟩ ⟨[⟨"IN"⟩], [], 8⟩ := by
  constructor
  · rw [(config_input_checked_output_ignored ⟨[⟨"IN"⟩], [⟨"OUT"⟩]⟩ ⟨[], [], 8⟩
      ⟨[], []⟩ ⟨[], [], 0⟩).1 (by decide) (by decide) (by decide)]
    rfl
  · exact (config_input_checked_output_ignored ⟨[], []⟩ ⟨[], [], 0⟩
      ⟨[⟨"IN"⟩], [⟨"OUT"⟩]⟩ ⟨[⟨"IN"⟩], [], 8⟩).2.2.2 [⟨"O1"⟩, ⟨"O2"⟩]

/-- C10: the positional image filename is optional with default `None`
(`defaultFlags` embeds the argparse result of an empty command line, so
argument parsing itself does not fail); once client creation, both fetches
and validation have succeeded, the run reaches the `os.path.isdir` test with
`None` and dies there with an uncaught `TypeError`, with nothing printed; and
a failing metadata fetch instead produces the earlier diagnostic exit. -/
theorem default_image_filename_uncaught (env : Env) (mv : MetaVals)
    (cv : ConfigVals) (pr : String × String × Nat)
    (h1 : env.clientCreateError = none) (h2 : env.metadataResult = .ok mv)
    (h3 : env.configResult = .ok cv)
    (h4 : parseDispatch (selectProtocol defaultFlags.protocol) mv cv
      = .ok pr) :
    defaultFlags.image_filename = none ∧
    runMain defaultFlags env = .uncaught .typeError [] ∧
    (∀ (env2 : Env) e, env2.clientCreateError = none →
      env2.metadataResult = .error e →
      runMain defaultFlags env2
        = .exitDiag ("failed to retrieve the metadata: " ++ e)) := by
  refine ⟨rfl, ?_, ?_⟩
  · have h5 : defaultFlags.image_filename = none := rfl
    simp [runMain, h1, h2, h3, h4, h5]
  · intro env2 e g1 g2
    simp [runMain, g1, g2]

/-- C10 witness: with the default flags and a healthy server, the run dies
with the uncaught `TypeError` at the directory test. -/
theorem default_image_filename_uncaught_witness :
    runMain defaultFlags
      { clientCreateError := none,
        metadataResult := .ok ⟨[⟨"IN"⟩], [⟨"OUT"⟩]⟩,
        configResult := .ok ⟨[⟨"IN"⟩], [⟨"OUT"⟩], 8⟩,
        pathIsDir := false, dirEntries := [], unreadable := [],
        inferResult := .error "unused" }
      = .uncaught .typeError [] :=
  (default_image_filename_uncaught _ ⟨[⟨"IN"⟩], [⟨"OUT"⟩]⟩
    ⟨[⟨"IN"⟩], [⟨"OUT"⟩], 8⟩ ("IN", "OUT", 8) rfl rfl rfl (by rfl)).2.1

end Ensemble
